import Mathlib

/-!
Verification of the embedded static HTTP file server of `vasu.io`
(`src/main.rs`, functions `cmd_http`, `percent_decode`, `guess_mime`).

The request line, paths, and text bodies are modelled as `List Char`
(Rust iterates `char`s in `percent_decode` and builds `String`s);
file contents are modelled as `List Nat` (bytes).  The filesystem is an
abstract parameter (`Fs`): the server only ever calls `is_dir`,
`is_file`, `read_dir` and `read`, so a record of those four observations
is a faithful interface to the real filesystem.
-/

namespace VasuIo

/-! ### Whitespace splitting (Rust `str::split_whitespace`)

Rust splits on Unicode `White_Space` characters and skips empty tokens. -/

/-- The Unicode `White_Space` property, as used by Rust `char::is_whitespace`. -/
def rustIsWhitespace (c : Char) : Bool :=
  let n := c.toNat
  (0x09 ≤ n && n ≤ 0x0D) || n = 0x20 || n = 0x85 || n = 0xA0 || n = 0x1680 ||
  (0x2000 ≤ n && n ≤ 0x200A) || n = 0x2028 || n = 0x2029 || n = 0x202F ||
  n = 0x205F || n = 0x3000

/-- Helper for `splitWs`: `cur` holds the (reversed) token being accumulated. -/
def splitWsAux : List Char → List Char → List (List Char)
  | [], [] => []
  | [], cur => [cur.reverse]
  | c :: rest, cur =>
    if rustIsWhitespace c then
      if cur = [] then splitWsAux rest []
      else cur.reverse :: splitWsAux rest []
    else splitWsAux rest (c :: cur)

/-- Rust `str::split_whitespace`, collected to a list of tokens. -/
def splitWs (l : List Char) : List (List Char) :=
  splitWsAux l []

/-- `first_line.split_whitespace().nth(1).unwrap_or("/")` (main.rs:876-878):
the request path token, defaulting to `/` when the line has fewer than
two whitespace-separated tokens. -/
def pathTok (firstLine : List Char) : List Char :=
  ((splitWs firstLine).get? 1).getD ['/']

/-! ### Percent decoding (`percent_decode`, main.rs:929-943)

On `%` the code takes up to two characters from the iterator and hands
them to `u8::from_str_radix(_, 16)`.  That Rust parser accepts one or
more hex digits (uppercase or lowercase) with unsigned overflow
checking, optionally preceded by a `+` sign; a `-` sign is stripped only
for signed types, so for `u8` a `-` reaches the digit loop and fails.
In particular a *single* hex digit parses successfully. -/

/-- Rust `char::to_digit(16)`. -/
def hexDigit (c : Char) : Option Nat :=
  let n := c.toNat
  if 0x30 ≤ n && n ≤ 0x39 then some (n - 0x30)
  else if 0x61 ≤ n && n ≤ 0x66 then some (n - 0x61 + 10)
  else if 0x41 ≤ n && n ≤ 0x46 then some (n - 0x41 + 10)
  else none

/-- `c` is a hexadecimal digit. -/
def isHexDigit (c : Char) : Bool :=
  (hexDigit c).isSome

/-- The value of a hexadecimal digit (0 for non-digits). -/
def hexVal (c : Char) : Nat :=
  (hexDigit c).getD 0

/-- Digit-accumulation loop of `u8::from_str_radix` for radix 16 on `u8`,
positive branch: `acc.checked_mul(16)?.checked_add(d)?` fails above 255. -/
def parseHexU8 : List Char → Nat → Option Nat
  | [], acc => some acc
  | c :: rest, acc =>
    match hexDigit c with
    | some d => if acc * 16 + d ≤ 255 then parseHexU8 rest (acc * 16 + d) else none
    | none => none

/-- `u8::from_str_radix(s, 16)`: empty input fails; a lone `+` or `-`
fails; a leading `+` is stripped before the digit loop; a `-` is
stripped only for *signed* destination types, so for `u8` it reaches
the digit loop, where `-` is not a digit and the parse fails. -/
def fromStrRadix16 (l : List Char) : Option Nat :=
  match l with
  | [] => none
  | c :: rest =>
    if (c = '+' ∨ c = '-') ∧ rest = [] then none
    else if c = '+' then parseHexU8 rest 0
    else parseHexU8 l 0

/-- `percent_decode` (main.rs:929-943): scan characters; on `%` take up
to two characters (fewer when the input ends), parse them with
`u8::from_str_radix(_, 16)`, and on success push `byte as char` (the
character whose codepoint is the byte); on failure push nothing.  Every
other character is pushed unchanged. -/
def percentDecode : List Char → List Char
  | [] => []
  | c :: rest =>
    if c = '%' then
      match rest with
      | h1 :: h2 :: rest2 =>
        (match fromStrRadix16 [h1, h2] with
         | some b => Char.ofNat b :: percentDecode rest2
         | none => percentDecode rest2)
      | short =>
        (match fromStrRadix16 short with
         | some b => [Char.ofNat b]
         | none => [])
    else c :: percentDecode rest

/-! ### Path resolution (main.rs:880-885)

`decoded.trim_start_matches('/')` removes *all* leading `/` characters
(Rust `trim_start_matches` strips the pattern repeatedly); if the
remainder is empty the target is the root `dir`, otherwise it is
`dir.join(remainder)`. -/

/-- Rust `str::trim_start_matches('/')`: repeatedly strip a leading `/`. -/
def trimStartSlashes : List Char → List Char
  | [] => []
  | c :: rest => if c = '/' then trimStartSlashes rest else c :: rest

/-- Rust `str::trim_end_matches('/')`: repeatedly strip a trailing `/`. -/
def trimEndSlashes (l : List Char) : List Char :=
  (trimStartSlashes l.reverse).reverse

/-- Rust `Path::join` on Unix: an absolute argument replaces the base;
otherwise the two are joined with a `/` separator (not doubled when the
base already ends in `/`).  No `.`/`..` normalization happens. -/
def pathJoin (base rel : List Char) : List Char :=
  if rel.head? = some '/' then rel
  else if base = [] then rel
  else if base.getLast? = some '/' then base ++ rel
  else base ++ '/' :: rel

/-- The resolver (main.rs:880-885): strip all leading `/` from the
decoded path; empty remainder targets the root, otherwise join. -/
def resolvePath (dir decoded : List Char) : List Char :=
  let rel := trimStartSlashes decoded
  if rel = [] then dir else pathJoin dir rel

/-- The filesystem path the request line resolves to: extract the path
token, percent-decode it, resolve against the root. -/
def resolvedTargetPath (dir firstLine : List Char) : List Char :=
  resolvePath dir (percentDecode (pathTok firstLine))

/-- Modelled from the spec's words (§4.4, claim C1), for comparison with
`resolvePath`: strip a *single* leading `/` if present; if the remainder
is empty the target is the root, otherwise the root is joined with the
remainder by plain path-separator joining. -/
def resolvePathSpecC1 (dir decoded : List Char) : List Char :=
  let rel := match decoded with
    | '/' :: r => r
    | r => r
  if rel = [] then dir else dir ++ '/' :: rel

/-! ### File extension and MIME lookup -/

/-- The final component of a path: everything after the last `/`
(model of Rust `Path::file_name` for paths whose final component is a
plain name). -/
def lastComponent (p : List Char) : List Char :=
  (p.reverse.takeWhile (fun c => c ≠ '/')).reverse

/-- Rust `Path::extension` on the file name: the portion after the last
`.`, or empty when there is no `.` or when the only `.` is the leading
character (`.bashrc` has no extension).  The code turns a missing
extension into `""` via `unwrap_or_default` (main.rs:909-910). -/
def rustExtension (p : List Char) : List Char :=
  let name := lastComponent p
  let revAfter := name.reverse.takeWhile (fun c => c ≠ '.')
  if revAfter.length = name.length then []
  else if name.length = revAfter.length + 1 && name.head? = some '.' then []
  else revAfter.reverse

/-- `guess_mime` (main.rs:945-959): exact match on the extension string. -/
def guessMime (ext : List Char) : List Char :=
  if ext = "html".toList ∨ ext = "htm".toList then "text/html".toList
  else if ext = "css".toList then "text/css".toList
  else if ext = "js".toList then "application/javascript".toList
  else if ext = "json".toList then "application/json".toList
  else if ext = "png".toList then "image/png".toList
  else if ext = "jpg".toList ∨ ext = "jpeg".toList then "image/jpeg".toList
  else if ext = "gif".toList then "image/gif".toList
  else if ext = "svg".toList then "image/svg+xml".toList
  else if ext = "pdf".toList then "application/pdf".toList
  else if ext = "txt".toList ∨ ext = "md".toList then "text/plain".toList
  else "application/octet-stream".toList

/-! ### Byte lengths of text

Rust `String::len` counts UTF-8 bytes, and the strings are written to
the socket as their UTF-8 bytes; so we model the encoding. -/

/-- UTF-8 encoding of one scalar value. -/
def utf8EncodeChar (c : Char) : List Nat :=
  let n := c.toNat
  if n < 0x80 then [n]
  else if n < 0x800 then [0xC0 + n / 64, 0x80 + n % 64]
  else if n < 0x10000 then [0xE0 + n / 4096, 0x80 + n / 64 % 64, 0x80 + n % 64]
  else [0xF0 + n / 262144, 0x80 + n / 4096 % 64, 0x80 + n / 64 % 64, 0x80 + n % 64]

/-- UTF-8 encoding of a string. -/
def utf8Bytes (l : List Char) : List Nat :=
  l.flatMap utf8EncodeChar

/-- Rust `String::len`: the UTF-8 byte count. -/
def utf8Len (l : List Char) : Nat :=
  (utf8Bytes l).length

/-! ### Responses

Each branch of `cmd_http` writes one of four literal shapes
(main.rs:903-904, 911-917, 919, 922): a status line, an optional
`Content-Type` header, an optional `Content-Length` header, a blank
line, and a body that is either text (written as UTF-8), raw file
bytes, or absent.  `Resp` records exactly those pieces and
`renderResp` reassembles the bytes on the wire. -/

/-- The body a response carries. -/
inductive Body where
  | text (s : List Char)
  | bytes (b : List Nat)
  | absent
  deriving DecidableEq, Repr

/-- The number of bytes a body puts on the wire. -/
def Body.byteLen : Body → Nat
  | .text s => utf8Len s
  | .bytes b => b.length
  | .absent => 0

/-- An HTTP response as `cmd_http` builds it. -/
structure Resp where
  status : Nat
  reason : List Char
  contentType : Option (List Char)
  contentLength : Option Nat
  body : Body
  deriving DecidableEq, Repr

/-- Decimal rendering of a number, as Rust `format!` prints a `usize`. -/
def natToStr (n : Nat) : List Char :=
  (Nat.repr n).toList

/-- Serialization of a response onto the wire: status line, the headers
the response carries, a blank line, the body bytes. -/
def renderResp (r : Resp) : List Nat :=
  utf8Bytes ("HTTP/1.1 ".toList ++ natToStr r.status ++ ' ' :: r.reason ++ "\r\n".toList
    ++ (match r.contentType with
        | some ct => "Content-Type: ".toList ++ ct ++ "\r\n".toList
        | none => [])
    ++ (match r.contentLength with
        | some n => "Content-Length: ".toList ++ natToStr n ++ "\r\n".toList
        | none => [])
    ++ "\r\n".toList)
  ++ (match r.body with
      | .text s => utf8Bytes s
      | .bytes b => b
      | .absent => [])

/-! ### Directory listing (main.rs:887-904) -/

/-- One entry returned by `read_dir`: its file name and whether its path
is a directory. -/
structure DirEntry where
  name : List Char
  isDir : Bool
  deriving DecidableEq, Repr

/-- Byte order on names: Rust compares `OsString`s by their bytes, and
UTF-8 byte order agrees with codepoint order. -/
def nameLe : List Char → List Char → Bool
  | [], _ => true
  | _ :: _, [] => false
  | a :: as, b :: bs =>
    if a.toNat < b.toNat then true
    else if b.toNat < a.toNat then false
    else nameLe as bs

/-- `items.sort_by_key(|e| e.file_name())` (main.rs:894): a stable sort
ascending by name. -/
def sortEntries (items : List DirEntry) : List DirEntry :=
  items.mergeSort (fun a b => nameLe a.name b.name)

/-- One `<li>` line of the listing (main.rs:896-899): the href is the
original still-encoded request path with trailing `/` trimmed, then `/`,
then the raw child name; the name is not HTML-escaped. -/
def dirItem (trimmedPath : List Char) (e : DirEntry) : List Char :=
  let href := trimmedPath ++ '/' :: e.name
  let icon := if e.isDir then "📁".toList else "📄".toList
  "<li>".toList ++ icon ++ " <a href='".toList ++ href ++ "'>".toList
    ++ e.name ++ "</a></li>".toList

/-- The listing body (main.rs:888-902): heading with the resolved path,
one item per child in sorted order (no items at all when `read_dir`
fails), closing tags. -/
def dirListingBody (fullPath : List Char) (entries : Option (List DirEntry))
    (pathStr : List Char) : List Char :=
  "<html><head><meta charset='utf-8'></head><body><h2>📁 ".toList
    ++ fullPath ++ "</h2><ul>".toList
    ++ (match entries with
        | some items =>
          ((sortEntries items).map (dirItem (trimEndSlashes pathStr))).flatten
        | none => [])
    ++ "</ul></body></html>".toList

/-! ### The connection handler (main.rs:876-925) -/

/-- The filesystem as the server observes it: the four queries
`cmd_http` makes about paths.  `read_dir` is `none` when listing fails,
`read` is `none` when reading the file fails. -/
structure Fs where
  isDir : List Char → Bool
  isFile : List Char → Bool
  readDir : List Char → Option (List DirEntry)
  read : List Char → Option (List Nat)

/-- The response for a given path token (main.rs:879-923): decode,
resolve, then branch on directory / file / missing. -/
def handlePath (fs : Fs) (dir pathStr : List Char) : Resp :=
  let decoded := percentDecode pathStr
  let fullPath := resolvePath dir decoded
  if fs.isDir fullPath then
    let body := dirListingBody fullPath (fs.readDir fullPath) pathStr
    { status := 200, reason := "OK".toList,
      contentType := some "text/html".toList,
      contentLength := some (utf8Len body), body := .text body }
  else if fs.isFile fullPath then
    match fs.read fullPath with
    | some data =>
      { status := 200, reason := "OK".toList,
        contentType := some (guessMime (rustExtension fullPath)),
        contentLength := some data.length, body := .bytes data }
    | none =>
      { status := 500, reason := "Internal Server Error".toList,
        contentType := none, contentLength := none, body := .absent }
  else
    { status := 404, reason := "Not Found".toList,
      contentType := none, contentLength := some 9,
      body := .text "404 oops".toList }

/-- One request-response cycle: only the second whitespace token of the
request line (default `/`) feeds `handlePath`. -/
def handleRequest (fs : Fs) (dir firstLine : List Char) : Resp :=
  handlePath fs dir (pathTok firstLine)

/-! ### Concrete filesystems used to instantiate the theorems -/

/-- A filesystem with nothing in it. -/
def fsNone : Fs where
  isDir _ := false
  isFile _ := false
  readDir _ := none
  read _ := none

/-- A root `/r` holding children `b`, `index.html`, `a` (deliberately
unsorted). -/
def fsDemoDir : Fs where
  isDir p := p = "/r".toList
  isFile _ := false
  readDir p :=
    if p = "/r".toList then
      some [⟨"b".toList, false⟩, ⟨"index.html".toList, false⟩, ⟨"a".toList, true⟩]
    else none
  read _ := none

/-- A root `/r` holding one readable two-byte file `f.txt`. -/
def fsDemoFile : Fs where
  isDir _ := false
  isFile p := p = "/r/f.txt".toList
  readDir _ := none
  read p := if p = "/r/f.txt".toList then some [104, 105] else none

/-- A root `/r` holding a file `f.txt` whose read fails. -/
def fsDemoBroken : Fs where
  isDir _ := false
  isFile p := p = "/r/f.txt".toList
  readDir _ := none
  read _ := none

/-! ## Lemmas about the percent decoder -/

/-- A hexadecimal digit's value is at most 15. -/
theorem hexDigit_le_15 {c : Char} {d : Nat} (h : hexDigit c = some d) : d ≤ 15 := by
  dsimp only [hexDigit] at h
  split at h
  · simp only [Option.some.injEq] at h
    rename_i hcond
    simp only [Bool.and_eq_true, decide_eq_true_eq] at hcond
    omega
  · split at h
    · simp only [Option.some.injEq] at h
      rename_i hcond
      simp only [Bool.and_eq_true, decide_eq_true_eq] at hcond
      omega
    · split at h
      · simp only [Option.some.injEq] at h
        rename_i hcond
        simp only [Bool.and_eq_true, decide_eq_true_eq] at hcond
        omega
      · exact Option.noConfusion h

/-- A character with a hexadecimal value is not a sign character. -/
theorem hexDigit_ne_sign {c : Char} {d : Nat} (h : hexDigit c = some d) :
    c ≠ '+' ∧ c ≠ '-' := by
  have hp : hexDigit '+' = none := by decide
  have hm : hexDigit '-' = none := by decide
  refine ⟨?_, ?_⟩ <;> intro he
  · rw [he, hp] at h; exact Option.noConfusion h
  · rw [he, hm] at h; exact Option.noConfusion h

/-- One digit-accumulation step of the `u8` parser. -/
theorem parseHexU8_cons (c : Char) (rest : List Char) (acc : Nat) :
    parseHexU8 (c :: rest) acc
      = match hexDigit c with
        | some d => if acc * 16 + d ≤ 255 then parseHexU8 rest (acc * 16 + d) else none
        | none => none := rfl

/-- `u8::from_str_radix` on exactly two hexadecimal digits yields the
byte they denote. -/
theorem fromStrRadix16_pair {h1 h2 : Char} {d1 d2 : Nat}
    (v1 : hexDigit h1 = some d1) (v2 : hexDigit h2 = some d2) :
    fromStrRadix16 [h1, h2] = some (16 * d1 + d2) := by
  have b1 := hexDigit_le_15 v1
  have b2 := hexDigit_le_15 v2
  have s1 := hexDigit_ne_sign v1
  dsimp only [fromStrRadix16]
  rw [if_neg (fun h => List.cons_ne_nil h2 [] h.2), if_neg s1.1]
  rw [parseHexU8_cons, v1]
  dsimp only
  rw [if_pos (by omega)]
  rw [parseHexU8_cons, v2]
  dsimp only
  rw [if_pos (by omega)]
  show some _ = some _
  congr 1
  omega

/-- Unfolding the decoder on a `%` with at least two following characters. -/
theorem percentDecode_pct_pair (h1 h2 : Char) (rest2 : List Char) :
    percentDecode ('%' :: h1 :: h2 :: rest2)
      = match fromStrRadix16 [h1, h2] with
        | some b => Char.ofNat b :: percentDecode rest2
        | none => percentDecode rest2 := by
  rw [percentDecode.eq_def]
  dsimp only
  rw [if_pos rfl]

/-- Unfolding the decoder on a non-`%` character. -/
theorem percentDecode_cons_ne (c : Char) (rest : List Char) (hc : c ≠ '%') :
    percentDecode (c :: rest) = c :: percentDecode rest := by
  rw [percentDecode.eq_def]
  dsimp only
  rw [if_neg hc]

/-- A `%` as last character with an unparsable single following
character decodes to nothing. -/
theorem percentDecode_pct_one (h1 : Char) (hbad : fromStrRadix16 [h1] = none) :
    percentDecode ['%', h1] = [] := by
  rw [percentDecode.eq_def]
  dsimp only
  rw [if_pos rfl, hbad]

/-- Characters before the first `%` pass through the decoder unchanged. -/
theorem percentDecode_no_pct_append (a l : List Char) (ha : '%' ∉ a) :
    percentDecode (a ++ l) = a ++ percentDecode l := by
  induction a with
  | nil => rfl
  | cons c a ih =>
    have hc : c ≠ '%' := fun he => ha (by simp [he])
    have ha' : '%' ∉ a := fun hm => ha (List.mem_cons_of_mem c hm)
    rw [List.cons_append, percentDecode_cons_ne c _ hc, ih ha', List.cons_append]

/-! ## Claim C3 — valid escapes decode to their byte -/

/-- C3: for every `%` followed by two valid hexadecimal digits, decoding
emits exactly the character whose codepoint is the denoted byte at that
position in the output, and in a string without `%` every character
passes through unchanged. -/
theorem percent_decode_valid_escape (a b : List Char) (h1 h2 : Char)
    (ha : '%' ∉ a) (hh1 : isHexDigit h1 = true) (hh2 : isHexDigit h2 = true) :
    percentDecode (a ++ '%' :: h1 :: h2 :: b)
      = a ++ Char.ofNat (16 * hexVal h1 + hexVal h2) :: percentDecode b
    ∧ ∀ s : List Char, '%' ∉ s → percentDecode s = s := by
  constructor
  · obtain ⟨d1, v1⟩ := Option.isSome_iff_exists.mp hh1
    obtain ⟨d2, v2⟩ := Option.isSome_iff_exists.mp hh2
    rw [percentDecode_no_pct_append a _ ha, percentDecode_pct_pair,
      fromStrRadix16_pair v1 v2]
    dsimp only
    rw [hexVal, hexVal, v1, v2]
    rfl
  · intro s hs
    have h0 := percentDecode_no_pct_append s [] hs
    rw [List.append_nil] at h0
    rw [h0, show percentDecode [] = ([] : List Char) from rfl, List.append_nil]

/-- C3 witness: `/a%2Ft` decodes to `/a` + the byte 0x2F + `t`. -/
theorem percent_decode_valid_escape_witness :
    isHexDigit '2' = true ∧ isHexDigit 'F' = true ∧
    percentDecode ("/a".toList ++ '%' :: '2' :: 'F' :: "t".toList)
      = "/a".toList ++ Char.ofNat (16 * hexVal '2' + hexVal 'F') :: percentDecode "t".toList :=
  ⟨by decide, by decide,
    (percent_decode_valid_escape "/a".toList "t".toList '2' 'F'
      (by decide) (by decide) (by decide)).1⟩

/-! ## Claim C2 — malformed escapes

The claim says an escape with fewer than two remaining characters emits
nothing; but `u8::from_str_radix` accepts a *single* hex digit, so `%a`
at the end of the input emits byte 0x0A. -/

/-- C2 counterexample: `%a` (one remaining character) does *not* emit
nothing — it decodes to the single byte 0x0A. -/
theorem percent_decode_short_escape_refuted :
    percentDecode "%a".toList = [Char.ofNat 10]
    ∧ percentDecode "%a".toList ≠ [] := by
  constructor
  · decide
  · decide

/-- C2 amended: when the up-to-two consumed characters fail to parse
under `u8::from_str_radix(_, 16)`, the decoder consumes them and emits
nothing for the escape, and characters before the escape are preserved
unchanged; no error is surfaced. -/
theorem percent_decode_invalid_escape (a rest : List Char)
    (ha : '%' ∉ a) (hbad : fromStrRadix16 (rest.take 2) = none) :
    percentDecode (a ++ '%' :: rest) = a ++ percentDecode (rest.drop 2) := by
  rw [percentDecode_no_pct_append a _ ha]
  congr 1
  match rest with
  | [] =>
    rw [percentDecode.eq_def]
    dsimp only
    rw [if_pos rfl]
    rw [show fromStrRadix16 [] = none from rfl]
    rfl
  | [h1] =>
    rw [List.take] at hbad
    exact percentDecode_pct_one h1 (by simpa using hbad)
  | h1 :: h2 :: rest2 =>
    rw [percentDecode_pct_pair]
    simp only [List.take, List.drop] at hbad ⊢
    rw [hbad]

/-- C2 witness: `x!%zqy` decodes to `x!` + `y`, and `p%-0x` (the `-0`
that `u8::from_str_radix` rejects for an unsigned type) to `p` + `x`. -/
theorem percent_decode_invalid_escape_witness :
    (fromStrRadix16 (("zqy".toList).take 2) = none ∧
      percentDecode ("x!".toList ++ '%' :: "zqy".toList)
        = "x!".toList ++ percentDecode (("zqy".toList).drop 2)) ∧
    (fromStrRadix16 (("-0x".toList).take 2) = none ∧
      percentDecode ("p".toList ++ '%' :: "-0x".toList)
        = "p".toList ++ percentDecode (("-0x".toList).drop 2)) :=
  ⟨⟨by decide,
      percent_decode_invalid_escape "x!".toList "zqy".toList (by decide) (by decide)⟩,
    ⟨by decide,
      percent_decode_invalid_escape "p".toList "-0x".toList (by decide) (by decide)⟩⟩

/-! ## Claim C1 — path resolution

`trim_start_matches('/')` strips *all* leading slashes, not a single
one as the spec says; on the decoded path `//` the code resolves to the
root itself while the spec's rule joins the root with `/`. -/

/-- C1 counterexample: on the decoded path `//` the code's resolver
returns the root, while the spec's single-slash rule yields a different
path. -/
theorem resolve_single_slash_strip_refuted :
    resolvePath "/r".toList "//".toList = "/r".toList
    ∧ resolvePathSpecC1 "/r".toList "//".toList = "/r//".toList
    ∧ resolvePathSpecC1 "/r".toList "//".toList ≠ resolvePath "/r".toList "//".toList := by
  refine ⟨by decide, by decide, by decide⟩

/-- Stripping all leading slashes, computed. -/
theorem trimStartSlashes_replicate (n : Nat) (rest : List Char)
    (h : rest.head? ≠ some '/') :
    trimStartSlashes (List.replicate n '/' ++ rest) = rest := by
  induction n with
  | zero =>
    rw [List.replicate, List.nil_append]
    match rest with
    | [] => rfl
    | c :: r =>
      rw [trimStartSlashes]
      rw [if_neg (by simpa using h)]
  | succ n ih =>
    rw [List.replicate, List.cons_append, trimStartSlashes, if_pos rfl, ih]

/-- C1 amended: the resolver strips *all* leading `/` characters from
the decoded path; if the remainder is empty the target is the root,
otherwise the root is joined with the remainder verbatim (so `.` and
`..` segments survive into the target). -/
theorem resolve_strips_all_leading_slashes (dir rest : List Char) (n : Nat)
    (h : rest.head? ≠ some '/') :
    resolvePath dir (List.replicate n '/' ++ rest)
      = if rest = [] then dir else pathJoin dir rest := by
  rw [resolvePath]
  rw [trimStartSlashes_replicate n rest h]

/-- C1 witness: `//a/../b` resolves to `/r/a/../b` — two slashes
stripped, the `..` segment untouched. -/
theorem resolve_strips_all_leading_slashes_witness :
    ("a/../b".toList).head? ≠ some '/' ∧
    resolvePath "/r".toList (List.replicate 2 '/' ++ "a/../b".toList)
      = (if "a/../b".toList = ([] : List Char) then "/r".toList
         else pathJoin "/r".toList "a/../b".toList) :=
  ⟨by decide,
    resolve_strips_all_leading_slashes "/r".toList "a/../b".toList 2 (by decide)⟩

/-! ## Sanity anchors: `renderResp` reproduces the literal format strings

These equalities tie the structured `Resp` decomposition back to the
exact strings `cmd_http` writes (main.rs:903-904, 911-914, 919, 922). -/

/-- The 404 record renders to the literal at main.rs:922. -/
theorem renderResp_notFound_literal :
    renderResp ({ status := 404, reason := "Not Found".toList, contentType := none,
                  contentLength := some 9, body := .text "404 oops".toList } : Resp)
      = utf8Bytes "HTTP/1.1 404 Not Found\r\nContent-Length: 9\r\n\r\n404 oops".toList := by
  decide

/-- The 500 record renders to the literal at main.rs:919. -/
theorem renderResp_serverError_literal :
    renderResp ({ status := 500, reason := "Internal Server Error".toList,
                  contentType := none, contentLength := none, body := .absent } : Resp)
      = utf8Bytes "HTTP/1.1 500 Internal Server Error\r\n\r\n".toList := by
  decide

/-- A 200 file record renders to the header literal of main.rs:911-914
followed by the raw file bytes (here the two-byte demo file). -/
theorem renderResp_file_literal :
    renderResp ({ status := 200, reason := "OK".toList,
                  contentType := some "text/plain".toList,
                  contentLength := some 2, body := .bytes [104, 105] } : Resp)
      = utf8Bytes "HTTP/1.1 200 OK\r\nContent-Type: text/plain\r\nContent-Length: 2\r\n\r\n".toList
        ++ [104, 105] := by
  decide

/-! ## Branch lemmas for the connection handler -/

/-- The handler's missing branch. -/
theorem handleRequest_missing (fs : Fs) (dir line : List Char)
    (hd : fs.isDir (resolvedTargetPath dir line) = false)
    (hf : fs.isFile (resolvedTargetPath dir line) = false) :
    handleRequest fs dir line
      = { status := 404, reason := "Not Found".toList, contentType := none,
          contentLength := some 9, body := .text "404 oops".toList } := by
  rw [handleRequest, handlePath]
  rw [show resolvePath dir (percentDecode (pathTok line))
        = resolvedTargetPath dir line from rfl]
  rw [hd, hf]
  rfl

/-- The handler's directory branch. -/
theorem handleRequest_dir (fs : Fs) (dir line : List Char)
    (hd : fs.isDir (resolvedTargetPath dir line) = true) :
    handleRequest fs dir line
      = { status := 200, reason := "OK".toList,
          contentType := some "text/html".toList,
          contentLength := some (utf8Len (dirListingBody (resolvedTargetPath dir line)
            (fs.readDir (resolvedTargetPath dir line)) (pathTok line))),
          body := .text (dirListingBody (resolvedTargetPath dir line)
            (fs.readDir (resolvedTargetPath dir line)) (pathTok line)) } := by
  rw [handleRequest, handlePath]
  rw [show resolvePath dir (percentDecode (pathTok line))
        = resolvedTargetPath dir line from rfl]
  rw [hd]
  rfl

/-- The handler's successful file branch. -/
theorem handleRequest_file (fs : Fs) (dir line : List Char) (data : List Nat)
    (hd : fs.isDir (resolvedTargetPath dir line) = false)
    (hf : fs.isFile (resolvedTargetPath dir line) = true)
    (hread : fs.read (resolvedTargetPath dir line) = some data) :
    handleRequest fs dir line
      = { status := 200, reason := "OK".toList,
          contentType := some (guessMime (rustExtension (resolvedTargetPath dir line))),
          contentLength := some data.length, body := .bytes data } := by
  rw [handleRequest, handlePath]
  rw [show resolvePath dir (percentDecode (pathTok line))
        = resolvedTargetPath dir line from rfl]
  rw [hd, hf, hread]
  rfl

/-- The handler's failed-read branch. -/
theorem handleRequest_readFail (fs : Fs) (dir line : List Char)
    (hd : fs.isDir (resolvedTargetPath dir line) = false)
    (hf : fs.isFile (resolvedTargetPath dir line) = true)
    (hread : fs.read (resolvedTargetPath dir line) = none) :
    handleRequest fs dir line
      = { status := 500, reason := "Internal Server Error".toList,
          contentType := none, contentLength := none, body := .absent } := by
  rw [handleRequest, handlePath]
  rw [show resolvePath dir (percentDecode (pathTok line))
        = resolvedTargetPath dir line from rfl]
  rw [hd, hf, hread]
  rfl

/-! ## Claim C4 — the 404 response

The code's 404 literal is
`"HTTP/1.1 404 Not Found\r\nContent-Length: 9\r\n\r\n404 oops"`
(main.rs:922).  The body `404 oops` is 8 bytes, not 9; the header says 9. -/

/-- C4 counterexample: the 404 body is 8 bytes, not 9. -/
theorem notFound_nine_byte_body_refuted :
    (handleRequest fsNone "/r".toList "GET /x HTTP/1.1".toList).status = 404
    ∧ (handleRequest fsNone "/r".toList "GET /x HTTP/1.1".toList).body
        = Body.text "404 oops".toList
    ∧ Body.byteLen (handleRequest fsNone "/r".toList "GET /x HTTP/1.1".toList).body = 8
    ∧ (8 : Nat) ≠ 9 := by
  refine ⟨by decide, by decide, by decide, by decide⟩

/-- C4 amended: every request whose resolved target is neither a
directory nor a regular file gets status 404 Not Found with the fixed
*8-byte* body `404 oops` and a `Content-Length` header of 9. -/
theorem notFound_response (fs : Fs) (dir line : List Char)
    (hd : fs.isDir (resolvedTargetPath dir line) = false)
    (hf : fs.isFile (resolvedTargetPath dir line) = false) :
    handleRequest fs dir line
      = { status := 404, reason := "Not Found".toList, contentType := none,
          contentLength := some 9, body := .text "404 oops".toList }
    ∧ Body.byteLen (Body.text "404 oops".toList) = 8 :=
  ⟨handleRequest_missing fs dir line hd hf, by decide⟩

/-- C4 witness: a request against the empty filesystem. -/
theorem notFound_response_witness :
    fsNone.isDir (resolvedTargetPath "/r".toList "GET /x HTTP/1.1".toList) = false ∧
    handleRequest fsNone "/r".toList "GET /x HTTP/1.1".toList
      = { status := 404, reason := "Not Found".toList, contentType := none,
          contentLength := some 9, body := .text "404 oops".toList } :=
  ⟨by decide,
    (notFound_response fsNone "/r".toList "GET /x HTTP/1.1".toList rfl rfl).1⟩

/-! ## Claim C5 — the Content-Length invariant is broken by the 404 -/

/-- C5: the 404 response carries `Content-Length: 9` while its body is
8 bytes on the wire — the header does not equal the body length. -/
theorem contentLength_mismatch_404 :
    (handleRequest fsNone "/r".toList "GET /nope HTTP/1.1".toList).contentLength = some 9
    ∧ Body.byteLen (handleRequest fsNone "/r".toList "GET /nope HTTP/1.1".toList).body = 8
    ∧ (handleRequest fsNone "/r".toList "GET /nope HTTP/1.1".toList).contentLength
        ≠ some (Body.byteLen (handleRequest fsNone "/r".toList "GET /nope HTTP/1.1".toList).body) := by
  refine ⟨by decide, by decide, by decide⟩

/-! ## Claim C8 — file serving -/

/-- C8: a request resolving to a regular file is answered, on read
success, with status 200, the file's exact bytes as body,
`Content-Length` equal to the byte count, and `Content-Type` from the
extension table; on read failure with 500 and an absent body. -/
theorem file_serving_response (fs : Fs) (dir line : List Char)
    (hd : fs.isDir (resolvedTargetPath dir line) = false)
    (hf : fs.isFile (resolvedTargetPath dir line) = true) :
    (∀ data : List Nat, fs.read (resolvedTargetPath dir line) = some data →
      handleRequest fs dir line
        = { status := 200, reason := "OK".toList,
            contentType := some (guessMime (rustExtension (resolvedTargetPath dir line))),
            contentLength := some data.length, body := .bytes data })
    ∧ (fs.read (resolvedTargetPath dir line) = none →
      handleRequest fs dir line
        = { status := 500, reason := "Internal Server Error".toList,
            contentType := none, contentLength := none, body := .absent }) :=
  ⟨fun data hread => handleRequest_file fs dir line data hd hf hread,
    fun hread => handleRequest_readFail fs dir line hd hf hread⟩

/-- C8 witness: serving the two-byte `/f.txt` yields 200, length 2,
`text/plain`. -/
theorem file_serving_response_witness :
    fsDemoFile.isFile (resolvedTargetPath "/r".toList "GET /f.txt HTTP/1.1".toList) = true ∧
    handleRequest fsDemoFile "/r".toList "GET /f.txt HTTP/1.1".toList
      = { status := 200, reason := "OK".toList,
          contentType := some (guessMime (rustExtension
            (resolvedTargetPath "/r".toList "GET /f.txt HTTP/1.1".toList))),
          contentLength := some 2, body := .bytes [104, 105] } :=
  ⟨by decide,
    (file_serving_response fsDemoFile "/r".toList "GET /f.txt HTTP/1.1".toList
      (by decide) (by decide)).1 [104, 105] (by decide)⟩

/-! ## Claim C10 — the 500 response is bare -/

/-- C10: the 500 response carries no Content-Type, no Content-Length
and no body; on the wire it is exactly the status line followed by the
header-terminating blank line. -/
theorem serverError_response_bare (fs : Fs) (dir line : List Char)
    (hd : fs.isDir (resolvedTargetPath dir line) = false)
    (hf : fs.isFile (resolvedTargetPath dir line) = true)
    (hread : fs.read (resolvedTargetPath dir line) = none) :
    (handleRequest fs dir line).contentType = none
    ∧ (handleRequest fs dir line).contentLength = none
    ∧ (handleRequest fs dir line).body = Body.absent
    ∧ renderResp (handleRequest fs dir line)
        = utf8Bytes "HTTP/1.1 500 Internal Server Error\r\n\r\n".toList := by
  rw [handleRequest_readFail fs dir line hd hf hread]
  refine ⟨rfl, rfl, rfl, by decide⟩

/-- C10 witness: the broken file's 500 response. -/
theorem serverError_response_bare_witness :
    fsDemoBroken.read (resolvedTargetPath "/r".toList "GET /f.txt HTTP/1.1".toList) = none ∧
    renderResp (handleRequest fsDemoBroken "/r".toList "GET /f.txt HTTP/1.1".toList)
      = utf8Bytes "HTTP/1.1 500 Internal Server Error\r\n\r\n".toList :=
  ⟨by decide,
    (serverError_response_bare fsDemoBroken "/r".toList "GET /f.txt HTTP/1.1".toList
      (by decide) (by decide) (by decide)).2.2.2⟩

/-! ## Claim C6 — the MIME table -/

/-- C6: every recognized extension maps to its content type; every other
string — empty, uppercase, unknown — maps to `application/octet-stream`. -/
theorem guess_mime_table :
    (guessMime "html".toList = "text/html".toList
      ∧ guessMime "htm".toList = "text/html".toList
      ∧ guessMime "css".toList = "text/css".toList
      ∧ guessMime "js".toList = "application/javascript".toList
      ∧ guessMime "json".toList = "application/json".toList
      ∧ guessMime "png".toList = "image/png".toList
      ∧ guessMime "jpg".toList = "image/jpeg".toList
      ∧ guessMime "jpeg".toList = "image/jpeg".toList
      ∧ guessMime "gif".toList = "image/gif".toList
      ∧ guessMime "svg".toList = "image/svg+xml".toList
      ∧ guessMime "pdf".toList = "application/pdf".toList
      ∧ guessMime "txt".toList = "text/plain".toList
      ∧ guessMime "md".toList = "text/plain".toList)
    ∧ ∀ e : List Char,
        e ∉ ["html".toList, "htm".toList, "css".toList, "js".toList,
          "json".toList, "png".toList, "jpg".toList, "jpeg".toList,
          "gif".toList, "svg".toList, "pdf".toList, "txt".toList, "md".toList]
        → guessMime e = "application/octet-stream".toList := by
  constructor
  · refine ⟨by decide, by decide, by decide, by decide, by decide, by decide,
      by decide, by decide, by decide, by decide, by decide, by decide, by decide⟩
  · intro e he
    simp only [List.mem_cons, List.not_mem_nil, or_false, not_or] at he
    obtain ⟨e1, e2, e3, e4, e5, e6, e7, e8, e9, e10, e11, e12, e13⟩ := he
    rw [guessMime]
    rw [if_neg (not_or.mpr ⟨e1, e2⟩), if_neg e3, if_neg e4, if_neg e5, if_neg e6,
      if_neg (not_or.mpr ⟨e7, e8⟩), if_neg e9, if_neg e10, if_neg e11,
      if_neg (not_or.mpr ⟨e12, e13⟩)]

/-- C6 witness: the uppercase variant `HTML` and the empty extension
both fall through to `application/octet-stream`. -/
theorem guess_mime_table_witness :
    guessMime "HTML".toList = "application/octet-stream".toList ∧
    guessMime "".toList = "application/octet-stream".toList :=
  ⟨guess_mime_table.2 "HTML".toList (by decide),
    guess_mime_table.2 "".toList (by decide)⟩

/-! ## Claim C9 — only the path token matters -/

/-- C9: two request lines with the same second whitespace-delimited
token get identical responses, whatever their method or trailing tokens;
and a line with no second token is served exactly like `GET / HTTP/1.1`. -/
theorem path_token_determines_response (fs : Fs) (dir l1 l2 : List Char)
    (h : (splitWs l1).get? 1 = (splitWs l2).get? 1) :
    handleRequest fs dir l1 = handleRequest fs dir l2
    ∧ ∀ l : List Char, (splitWs l).get? 1 = none →
        handleRequest fs dir l = handleRequest fs dir ("GET / HTTP/1.1".toList) := by
  constructor
  · rw [handleRequest, handleRequest, pathTok, pathTok, h]
  · intro l hl
    rw [handleRequest, handleRequest, pathTok, pathTok, hl]
    rfl

/-! ## Claim C7 — directory listings

`sort_by_key(|e| e.file_name())` sorts ascending by name; each link is
the still-encoded request path with trailing `/` trimmed, a `/`, and the
raw child name. -/

/-- `nameLe` never puts a nonempty name before the empty one. -/
theorem nameLe_cons_nil (x : Char) (as : List Char) :
    nameLe (x :: as) [] = false := rfl

/-- Unfolding `nameLe` on two nonempty names. -/
theorem nameLe_cons (x y : Char) (as bs : List Char) :
    nameLe (x :: as) (y :: bs)
      = if x.toNat < y.toNat then true
        else if y.toNat < x.toNat then false
        else nameLe as bs := rfl

/-- The name order is total. -/
theorem nameLe_total (a b : List Char) : nameLe a b = true ∨ nameLe b a = true := by
  induction a generalizing b with
  | nil => left; rfl
  | cons x as ih =>
    cases b with
    | nil => right; rfl
    | cons y bs =>
      rcases Nat.lt_trichotomy x.toNat y.toNat with h | h | h
      · left; rw [nameLe_cons, if_pos h]
      · rcases ih bs with hab | hba
        · left; rw [nameLe_cons, if_neg (by omega), if_neg (by omega)]; exact hab
        · right; rw [nameLe_cons, if_neg (by omega), if_neg (by omega)]; exact hba
      · right; rw [nameLe_cons, if_pos h]

/-- The name order is transitive. -/
theorem nameLe_trans (a b c : List Char) (hab : nameLe a b = true)
    (hbc : nameLe b c = true) : nameLe a c = true := by
  induction a generalizing b c with
  | nil => rfl
  | cons x as ih =>
    cases b with
    | nil => rw [nameLe_cons_nil] at hab; exact Bool.noConfusion hab
    | cons y bs =>
      cases c with
      | nil => rw [nameLe_cons_nil] at hbc; exact Bool.noConfusion hbc
      | cons z cs =>
        rw [nameLe_cons] at hab hbc ⊢
        by_cases hxy : x.toNat < y.toNat
        · by_cases hyz : y.toNat < z.toNat
          · rw [if_pos (by omega)]
          · by_cases hzy : z.toNat < y.toNat
            · rw [if_neg hyz, if_pos hzy] at hbc; exact absurd hbc (by decide)
            · rw [if_pos (by omega)]
        · by_cases hyx : y.toNat < x.toNat
          · rw [if_pos hyx] at hab
            rw [if_neg hxy] at hab
            exact absurd hab (by decide)
          · rw [if_neg hxy, if_neg hyx] at hab
            by_cases hyz : y.toNat < z.toNat
            · rw [if_pos (by omega)]
            · by_cases hzy : z.toNat < y.toNat
              · rw [if_neg hyz, if_pos hzy] at hbc; exact absurd hbc (by decide)
              · rw [if_neg hyz, if_neg hzy] at hbc
                rw [if_neg (show ¬x.toNat < z.toNat by omega),
                  if_neg (show ¬z.toNat < x.toNat by omega)]
                exact ih bs cs hab hbc

/-- The entry order used by `sortEntries` is transitive. -/
theorem entryLe_trans (a b c : DirEntry)
    (hab : nameLe a.name b.name = true) (hbc : nameLe b.name c.name = true) :
    nameLe a.name c.name = true :=
  nameLe_trans a.name b.name c.name hab hbc

/-- The entry order used by `sortEntries` is total. -/
theorem entryLe_total (a b : DirEntry) :
    (nameLe a.name b.name || nameLe b.name a.name) = true := by
  rcases nameLe_total a.name b.name with h | h <;> simp [h]

/-- C7: on a directory target whose listing succeeds, the response is a
200 whose body is the heading for the resolved path followed by one item
per child, the children appearing exactly once each (a permutation of
`read_dir`'s entries), in ascending name order, each item's hyperlink
target being the still-percent-encoded request path with trailing `/`
trimmed, then `/`, then the raw unescaped child name. -/
theorem dir_listing_response (fs : Fs) (dir line : List Char) (items : List DirEntry)
    (hd : fs.isDir (resolvedTargetPath dir line) = true)
    (hr : fs.readDir (resolvedTargetPath dir line) = some items) :
    (handleRequest fs dir line).status = 200
    ∧ (handleRequest fs dir line).body
        = Body.text ("<html><head><meta charset='utf-8'></head><body><h2>📁 ".toList
            ++ resolvedTargetPath dir line ++ "</h2><ul>".toList
            ++ ((sortEntries items).map (dirItem (trimEndSlashes (pathTok line)))).flatten
            ++ "</ul></body></html>".toList)
    ∧ List.Perm ((sortEntries items).map DirEntry.name) (items.map DirEntry.name)
    ∧ ((sortEntries items).map DirEntry.name).Pairwise (fun a b => nameLe a b = true)
    ∧ ∀ e ∈ sortEntries items,
        dirItem (trimEndSlashes (pathTok line)) e
          = "<li>".toList ++ (if e.isDir then "📁".toList else "📄".toList)
            ++ " <a href='".toList
            ++ (trimEndSlashes (pathTok line) ++ '/' :: e.name)
            ++ "'>".toList ++ e.name ++ "</a></li>".toList := by
  refine ⟨?_, ?_, ?_, ?_, ?_⟩
  · rw [handleRequest_dir fs dir line hd]
  · rw [handleRequest_dir fs dir line hd, hr]
    rfl
  · exact (List.mergeSort_perm items _).map DirEntry.name
  · rw [List.pairwise_map]
    exact List.sorted_mergeSort entryLe_trans entryLe_total items
  · intro e _
    rfl

/-- C7 witness: the demo root with children `b`, `index.html`, `a`
listed in sorted order `a`, `b`, `index.html`. -/
theorem dir_listing_response_witness :
    fsDemoDir.isDir (resolvedTargetPath "/r".toList "GET / HTTP/1.1".toList) = true ∧
    (handleRequest fsDemoDir "/r".toList "GET / HTTP/1.1".toList).status = 200 ∧
    List.Perm
      ((sortEntries [⟨"b".toList, false⟩, ⟨"index.html".toList, false⟩,
          ⟨"a".toList, true⟩]).map DirEntry.name)
      (([⟨"b".toList, false⟩, ⟨"index.html".toList, false⟩,
          (⟨"a".toList, true⟩ : DirEntry)]).map DirEntry.name) :=
  ⟨by decide,
    (dir_listing_response fsDemoDir "/r".toList "GET / HTTP/1.1".toList
      [⟨"b".toList, false⟩, ⟨"index.html".toList, false⟩, ⟨"a".toList, true⟩]
      (by decide) (by decide)).1,
    (dir_listing_response fsDemoDir "/r".toList "GET / HTTP/1.1".toList
      [⟨"b".toList, false⟩, ⟨"index.html".toList, false⟩, ⟨"a".toList, true⟩]
      (by decide) (by decide)).2.2.1⟩

/-- C9 witness: a `POST` with junk version token is served like the
`GET`, and a bare method line is served like `GET / HTTP/1.1`. -/
theorem path_token_determines_response_witness :
    (splitWs "GET /f.txt HTTP/1.1".toList).get? 1
        = (splitWs "POST /f.txt JUNK/9.9 extra".toList).get? 1 ∧
    handleRequest fsDemoFile "/r".toList "GET /f.txt HTTP/1.1".toList
      = handleRequest fsDemoFile "/r".toList "POST /f.txt JUNK/9.9 extra".toList ∧
    handleRequest fsDemoFile "/r".toList "GET".toList
      = handleRequest fsDemoFile "/r".toList "GET / HTTP/1.1".toList :=
  ⟨by decide,
    (path_token_determines_response fsDemoFile "/r".toList
      "GET /f.txt HTTP/1.1".toList "POST /f.txt JUNK/9.9 extra".toList (by decide)).1,
    (path_token_determines_response fsDemoFile "/r".toList
      "GET /f.txt HTTP/1.1".toList "GET /f.txt HTTP/1.1".toList rfl).2
      "GET".toList (by decide)⟩

end VasuIo
